import Mathlib

/-!
Verification of the simple_excel_writer document model and serialization
engine (src/sheet.rs, src/workbook.rs). The Rust code is shallowly
embedded: structs become structures, `&mut self` methods become functions
returning the updated value, `io::Result` becomes `Except String`, and
XML emission into a `Write` sink becomes functions returning the emitted
`String`. Machine integers (`usize`, `u16`) are modelled as `Nat`.
Floating point payloads (`f64` cell numbers) are modelled as `Int`; no
verified property inspects a numeric payload, only the surrounding
structure. Archive entry payload bytes are not modelled, only the entry
paths, which is all the packaging properties talk about.
-/

namespace SimpleExcelWriter

/-- Body of the while loop in `column_letter` (src/sheet.rs). The Rust
loop variable is an `isize` that stays nonnegative until the final
decrement, so it is modelled on `Nat` with the loop guard
`column_index >= 0` folded into the recursion: the next iterate
`i / 26 - 1` is nonnegative exactly when `26 ≤ i`. The loop runs at most
`i + 1` times, so a structurally decreasing fuel argument (instantiated
with a value larger than `i`) makes the recursion structural and
kernel-evaluable; `columnLetterLoop_reverse` below shows the fuel is
never exhausted. -/
def columnLetterLoop : Nat → Nat → List Char
  | 0, _ => []
  | fuel + 1, i =>
    if i < 26 then [Char.ofNat (65 + i % 26)]
    else Char.ofNat (65 + i % 26) :: columnLetterLoop fuel (i / 26 - 1)

/-- `column_letter` from src/sheet.rs: maps a 1-based column index to its
letter sequence. `b'A' = 65`, and the initial `column_index - 1` turns
the index 0-based. -/
def column_letter (column_index : Nat) : String :=
  String.mk (columnLetterLoop column_index (column_index - 1)).reverse

/-- In Rust, `column_index - 1` is an unsigned (`usize`) subtraction that
panics (under checked arithmetic) when the right operand exceeds the
left. Modelled as an `Option`. -/
def usize_sub (a b : Nat) : Option Nat :=
  if b ≤ a then some (a - b) else none

/-- `column_letter` with the initial unsigned subtraction modelled
explicitly: `none` is the panic on underflow at `column_index = 0`. -/
def column_letter_checked (column_index : Nat) : Option String :=
  (usize_sub column_index 1).map
    (fun i => String.mk (columnLetterLoop column_index i).reverse)

/-- Spec-side definition (for the refinement statement only): the
bijective base-26 letter sequence of a 1-based index, digits 1..26
rendered as A..Z, most significant digit first. -/
def bijBase26 (c : Nat) : List Char :=
  if c = 0 then []
  else bijBase26 ((c - 1) / 26) ++ [Char.ofNat (65 + (c - 1) % 26)]
termination_by c
decreasing_by
  have h := Nat.div_le_self (c - 1) 26
  omega

/-- The single-quote character, written by code so that no string literal
needs to contain it. -/
def aposChar : Char := Char.ofNat 39

/-- `escape_xml` from src/sheet.rs: the five XML special characters, each
replaced once, in the fixed source order. -/
def escape_xml (str : String) : String :=
  let str := str.replace "&" "&amp;"
  let str := str.replace "<" "&lt;"
  let str := str.replace ">" "&gt;"
  let str := str.replace (String.mk [aposChar]) "&apos;"
  str.replace "\"" "&quot;"

/-- `validate_name` from src/sheet.rs. -/
def validate_name (name : String) : String :=
  (escape_xml name).replace "/" "-"

/-- `ref_id` from src/sheet.rs: letters then decimal row, no separator. -/
def ref_id (column_index : Nat) (row_index : Nat) : String :=
  column_letter column_index ++ toString row_index

/-- Alias so the `CellValue.Bool` constructor can state its argument
type without the constructor name shadowing it. -/
abbrev HostBool := Bool

/-- Alias so the `CellValue.String` constructor can state its argument
type without the constructor name shadowing it. -/
abbrev HostString := String

/-- `CellValue` from src/sheet.rs. `Number`, `Date` and `Datetime` carry
`f64` in Rust; the payload is abstracted to `Int` (see the file
comment). -/
inductive CellValue where
  | Bool : HostBool → CellValue
  | Number : Int → CellValue
  | Date : Int → CellValue
  | Datetime : Int → CellValue
  | String : HostString → CellValue
  | Formula : HostString → CellValue
  | Blank : Nat → CellValue
  | SharedString : HostString → CellValue
deriving DecidableEq, Repr

/-- Whether a `CellValue` is the `Blank` variant. -/
def CellValue.isBlank : CellValue → HostBool
  | CellValue.Blank _ => true
  | _ => false

/-- `CellData` from src/sheet.rs; `XfFormat` is a `u16` newtype, kept as
`Nat`. -/
structure CellData where
  value : CellValue
  xf_format : Option Nat
deriving DecidableEq, Repr

/-- `Cell` from src/sheet.rs. -/
structure Cell where
  column_index : Nat
  value : CellData
deriving DecidableEq, Repr

/-- `MergedCell` from src/sheet.rs. -/
structure MergedCell where
  start_ref : String
  end_ref : String
deriving DecidableEq, Repr

/-- `Column` from src/sheet.rs (`width: f32`). -/
structure Column where
  width : Float

/-- `AutoFilter` from src/sheet.rs. -/
structure AutoFilter where
  start_col : String
  end_col : String
  start_row : Nat
  end_row : Nat
deriving DecidableEq, Repr

/-- `impl ToString for AutoFilter` from src/sheet.rs. -/
def AutoFilter.to_string (af : AutoFilter) : String :=
  af.start_col ++ toString af.start_row ++ ":" ++ af.end_col ++ toString af.end_row

/-- `Row` from src/sheet.rs. -/
structure Row where
  cells : List Cell
  row_index : Nat
  max_col_index : Nat
  calc_chain : List String
deriving DecidableEq, Repr

/-- `Row::new` (the `Default` derive: all fields empty/zero). -/
def Row.new : Row :=
  { cells := [], row_index := 0, max_col_index := 0, calc_chain := [] }

/-- `Sheet` from src/sheet.rs. -/
structure Sheet where
  id : Nat
  name : String
  columns : List Column
  max_row_index : Nat
  calc_chain : List String
  merged_cells : List MergedCell
  auto_filter : Option AutoFilter

/-- The `Default` derive for `Sheet`. -/
def Sheet.default : Sheet :=
  { id := 0, name := "", columns := [], max_row_index := 0,
    calc_chain := [], merged_cells := [], auto_filter := none }

/-- `Sheet::new` from src/sheet.rs. -/
def Sheet.new (id : Nat) (sheet_name : String) : Sheet :=
  { Sheet.default with id := id, name := validate_name sheet_name }

/-- The `ToCellData` impl for `&str` / `String` from src/sheet.rs: text
beginning with `=` becomes a `Formula` carrying the text after the `=`
(the Rust byte slice `&self[1..]`; `=` is one byte, so this drops the
first character). Modelled on the character list of the string so the
kernel can evaluate it. -/
def strToCellData (s : String) : CellData :=
  match s.data with
  | c :: cs =>
    if c = '=' then { value := CellValue.Formula (String.mk cs), xf_format := none }
    else { value := CellValue.String s, xf_format := none }
  | [] => { value := CellValue.String s, xf_format := none }

/-- `Row::add_cell` from src/sheet.rs, after the `to_cell_data`
conversion of the argument: a `Formula` extends the calc chain and is
stored at the incremented cursor, a `Blank` only advances the cursor,
everything else is stored at the incremented cursor. -/
def Row.add_cell (r : Row) (value : CellData) : Row :=
  match value.value with
  | CellValue.Formula f =>
    { r with calc_chain := r.calc_chain ++ [f],
             max_col_index := r.max_col_index + 1,
             cells := r.cells ++ [{ column_index := r.max_col_index + 1, value := value }] }
  | CellValue.Blank cols =>
    { r with max_col_index := r.max_col_index + cols }
  | _ =>
    { r with max_col_index := r.max_col_index + 1,
             cells := r.cells ++ [{ column_index := r.max_col_index + 1, value := value }] }

/-- `write_number` from src/sheet.rs (emitted string). -/
def write_number (ref_id : String) (value : Int) (style : Option Nat) : String :=
  "<c r=\"" ++ ref_id ++ "\""
    ++ (match style with
        | some format => " s=\"" ++ toString format ++ "\""
        | none => "")
    ++ "><v>" ++ toString value ++ "</v></c>"

/-- `write_value` from src/sheet.rs (emitted string). `Blank` emits
nothing. -/
def write_value (cv : CellData) (ref_id : String) : String :=
  let cell_style :=
    match cv.xf_format with
    | some xf_format => " s=\"" ++ toString xf_format ++ "\""
    | none => ""
  match cv.value with
  | CellValue.Bool b =>
    "<c r=\"" ++ ref_id ++ "\" t=\"b\"" ++ cell_style ++ "><v>"
      ++ (if b then "1" else "0") ++ "</v></c>"
  | CellValue.Number num => write_number ref_id num cv.xf_format
  | CellValue.Date num => write_number ref_id num (some 1)
  | CellValue.Datetime num => write_number ref_id num (some 2)
  | CellValue.String s =>
    "<c r=\"" ++ ref_id ++ "\" t=\"str\"" ++ cell_style ++ "><v>"
      ++ escape_xml s ++ "</v></c>"
  | CellValue.Formula s =>
    "<c r=\"" ++ ref_id ++ "\" t=\"str\"" ++ cell_style ++ "><f>"
      ++ escape_xml s ++ "</f></c>"
  | CellValue.SharedString s =>
    "<c r=\"" ++ ref_id ++ "\" t=\"s\"" ++ cell_style ++ "><v>" ++ s ++ "</v></c>"
  | CellValue.Blank _ => ""

/-- `Cell::write` from src/sheet.rs. -/
def Cell.write (c : Cell) (row_index : Nat) : String :=
  write_value c.value (ref_id c.column_index row_index)

/-- `Row::write` from src/sheet.rs: row element head, every stored cell
in order, closing tag. -/
def Row.write (r : Row) : String :=
  "<row r=\"" ++ toString r.row_index ++ "\">\n"
    ++ String.join (r.cells.map (fun c => c.write r.row_index))
    ++ "\n</row>\n"

/-- `Sheet::add_auto_filter` from src/sheet.rs: the range is recorded
only when both starts are positive and no start exceeds its end;
otherwise the call is a silent no-op. -/
def Sheet.add_auto_filter (s : Sheet)
    (start_col end_col start_row end_row : Nat) : Sheet :=
  if start_col > 0 ∧ start_row > 0 ∧ start_col ≤ end_col ∧ start_row ≤ end_row then
    { s with auto_filter := some ⟨column_letter start_col, column_letter end_col, start_row, end_row⟩ }
  else s

/-- `Sheet::write_row` from src/sheet.rs: bump the row counter, stamp it
on the row, drain the row calc chain into the sheet, emit the row.
Returns the updated sheet and the emitted string. -/
def Sheet.write_row (sheet : Sheet) (row : Row) : Sheet × String :=
  let row := { row with row_index := sheet.max_row_index + 1 }
  ({ sheet with max_row_index := sheet.max_row_index + 1,
                calc_chain := sheet.calc_chain ++ row.calc_chain },
   Row.write { row with calc_chain := [] })

/-- `Sheet::write_blank_rows` from src/sheet.rs. -/
def Sheet.write_blank_rows (sheet : Sheet) (rows : Nat) : Sheet :=
  { sheet with max_row_index := sheet.max_row_index + rows }

/-- `Sheet::write_data_end` from src/sheet.rs: the `autoFilter` element
is emitted exactly when a filter range was recorded. -/
def Sheet.write_data_end (s : Sheet) : String :=
  match s.auto_filter with
  | some auto_filter =>
    "\n</sheetData>\n<autoFilter ref=\"" ++ auto_filter.to_string ++ "\"/>\n"
  | none => "\n</sheetData>\n"

/-- `SheetWriter::merge_cells` from src/sheet.rs. The Rust method
mutates the bound sheet and returns `io::Result<()>`; modelled as the
result paired with the (possibly unchanged) sheet. `start` and `end` are
1-based `(column, row)` pairs. -/
def SheetWriter.merge_cells (sheet : Sheet) (start finish : Nat × Nat) :
    Except String Unit × Sheet :=
  if finish.1 ≥ start.1 ∧ finish.2 ≥ start.2 then
    (Except.ok (),
     { sheet with merged_cells := sheet.merged_cells ++
         [{ start_ref := ref_id start.1 start.2, end_ref := ref_id finish.1 finish.2 }] })
  else
    (Except.error "invalid range", sheet)

/-- `SheetWriter::merge_range` from src/sheet.rs: records the pair
verbatim and always returns `Ok`. -/
def SheetWriter.merge_range (sheet : Sheet) (start_ref end_ref : String) :
    Except String Unit × Sheet :=
  (Except.ok (),
   { sheet with merged_cells := sheet.merged_cells ++
       [{ start_ref := start_ref, end_ref := end_ref }] })

/-- `SharedStrings` from src/workbook.rs. -/
structure SharedStrings where
  count : Nat
  used : Bool
  strings : List String
deriving DecidableEq, Repr

/-- `SharedStrings::new` from src/workbook.rs. -/
def SharedStrings.new : SharedStrings :=
  { count := 0, used := true, strings := [] }

/-- `SharedStrings::new_unused` from src/workbook.rs. -/
def SharedStrings.new_unused : SharedStrings :=
  { count := 0, used := false, strings := [] }

/-- `Iterator::position` as used by `SharedStrings::register`
(`self.strings.iter().position(|v| v == val)`). -/
def listPosition (p : String → Bool) : List String → Option Nat
  | [] => none
  | x :: xs => if p x then some 0 else (listPosition p xs).map (· + 1)

/-- `SharedStrings::register` from src/workbook.rs: every call bumps the
usage counter (`add_count`, which does not touch `strings`, so it is
folded into each branch); an exact-match hit returns the existing index,
a miss appends and returns the new index (the Rust code pushes and then
uses `len - 1`, which equals the length before the push). -/
def SharedStrings.register (s : SharedStrings) (val : String) :
    CellValue × SharedStrings :=
  match listPosition (fun v => v == val) s.strings with
  | some idx =>
    (CellValue.SharedString (toString idx), { s with count := s.count + 1 })
  | none =>
    (CellValue.SharedString (toString s.strings.length),
     { s with count := s.count + 1, strings := s.strings ++ [val] })

/-- Iterated registration, for properties over a whole call sequence. -/
def registerAll (s : SharedStrings) : List String → SharedStrings
  | [] => s
  | v :: vs => registerAll (s.register v).2 vs

/-- `SheetRef` from src/workbook.rs. -/
structure SheetRef where
  id : Nat
  name : String
deriving DecidableEq, Repr

/-- `Workbook` from src/workbook.rs. Archive entries are modelled by
their forward-slash formatted paths (`path_format` output), in push
order; the payload bytes are not modelled. The `cell_formats` registry
is not modelled: no verified property mentions it. -/
structure Workbook where
  xlsx_file : Option String
  archive_files : List String
  max_sheet_index : Nat
  shared_strings : SharedStrings
  sheets : List SheetRef
  calc_chain : List (String × Nat)
  saved : Bool

/-- `Workbook::create` from src/workbook.rs (file-backed, shared strings
enabled). -/
def Workbook.create (xlsx_file : String) : Workbook :=
  { xlsx_file := some xlsx_file, archive_files := [], max_sheet_index := 0,
    shared_strings := SharedStrings.new, sheets := [], calc_chain := [],
    saved := false }

/-- `Workbook::create_in_memory` from src/workbook.rs (no destination
path, shared strings disabled). -/
def Workbook.create_in_memory : Workbook :=
  { xlsx_file := none, archive_files := [], max_sheet_index := 0,
    shared_strings := SharedStrings.new_unused, sheets := [], calc_chain := [],
    saved := false }

/-- `Workbook::create_sheet` from src/workbook.rs: bump the monotonic
sheet counter, record the validated-name ref, hand back a fresh sheet
bound to the new id. -/
def Workbook.create_sheet (wb : Workbook) (sheet_name : String) : Workbook × Sheet :=
  let idx := wb.max_sheet_index + 1
  let validated_name := validate_name sheet_name
  ({ wb with max_sheet_index := idx,
             sheets := wb.sheets ++ [{ id := idx, name := validated_name }] },
   { Sheet.default with id := idx, name := validated_name })

/-- The archive entry path of a worksheet, `xl/worksheets/sheet{id}.xml`
(src/workbook.rs, `write_sheet`). -/
def sheetEntryName (id : Nat) : String :=
  "xl/worksheets/sheet" ++ toString id ++ ".xml"

/-- `Workbook::write_sheet` from src/workbook.rs. The entry path is
fixed from the sheet id before the population closure runs; the calc
chain held by the sheet at entry is merged into the workbook tagged with
the sheet id; then the closure populates the sheet and the produced
part is pushed. The closure is abstracted as a sheet transformer (the
payload bytes it produces are not modelled). -/
def Workbook.write_sheet (wb : Workbook) (sheet : Sheet)
    (write_data : Sheet → Sheet) : Workbook × Sheet :=
  let entry := sheetEntryName sheet.id
  let wb := { wb with calc_chain :=
    wb.calc_chain ++ sheet.calc_chain.map (fun cc => (cc, sheet.id)) }
  let sheet := write_data sheet
  ({ wb with archive_files := wb.archive_files ++ [entry] }, sheet)

/-- The fixed skeleton part paths, in the exact push order of
`Workbook::create_files` (src/workbook.rs). -/
def skeletonParts : List String :=
  ["[Content_Types].xml",
   "_rels/.rels",
   "docProps/app.xml",
   "docProps/core.xml",
   "xl/styles.xml",
   "xl/sharedStrings.xml",
   "xl/workbook.xml",
   "xl/calcChain.xml",
   "xl/_rels/workbook.xml.rels",
   "xl/theme/theme1.xml"]

/-- `Workbook::create_files` from src/workbook.rs, restricted to the
entry paths it pushes. -/
def Workbook.create_files (wb : Workbook) : Workbook :=
  { wb with archive_files := wb.archive_files ++ skeletonParts }

/-- `Workbook::close` from src/workbook.rs: render the skeleton parts,
zip every recorded entry in order, then either persist to the
destination path (setting `saved`, returning `none`) or return the
in-memory package. The ZIP container is abstracted to its ordered entry
list; file output is modelled as always succeeding. -/
def Workbook.close (wb : Workbook) : Workbook × Option (List String) :=
  let wb := wb.create_files
  match wb.xlsx_file with
  | some _ => ({ wb with saved := true }, none)
  | none => (wb, some wb.archive_files)

/-- One create-then-populate-then-archive session per list element:
`create_sheet` followed by `write_sheet` with the given population
closure. This is the control flow of every example and test in the
repository. -/
def runSessions (wb : Workbook) : List (String × (Sheet → Sheet)) → Workbook
  | [] => wb
  | (nm, f) :: rest =>
    let ws := wb.create_sheet nm
    runSessions (ws.1.write_sheet ws.2 f).1 rest

/-- What `Drop for Workbook` (src/workbook.rs) does. -/
inductive DropBehavior where
  | invokesClose : DropBehavior
  | doesNothing : DropBehavior
deriving DecidableEq, Repr

/-- `impl Drop for Workbook` from src/workbook.rs: close is invoked from
drop exactly when the workbook is unsaved and has a destination path. -/
def Workbook.dropHandler (wb : Workbook) : DropBehavior :=
  if !wb.saved && wb.xlsx_file.isSome then DropBehavior.invokesClose
  else DropBehavior.doesNothing

theorem bijBase26_zero : bijBase26 0 = [] := by
  rw [bijBase26]
  simp

theorem bijBase26_pos (c : Nat) (h : c ≠ 0) :
    bijBase26 c = bijBase26 ((c - 1) / 26) ++ [Char.ofNat (65 + (c - 1) % 26)] := by
  rw [bijBase26]
  simp [h]

theorem columnLetterLoop_reverse (fuel : Nat) :
    ∀ i : Nat, i < fuel → (columnLetterLoop fuel i).reverse = bijBase26 (i + 1) := by
  induction fuel with
  | zero => intro i h; omega
  | succ f ih =>
    intro i h
    by_cases h26 : i < 26
    · have hloop : columnLetterLoop (f + 1) i = [Char.ofNat (65 + i % 26)] := by
        simp [columnLetterLoop, h26]
      rw [hloop, bijBase26_pos (i + 1) (Nat.succ_ne_zero i)]
      simp [Nat.div_eq_of_lt h26, bijBase26_zero]
    · have hge : 26 ≤ i := Nat.le_of_not_lt h26
      have hloop : columnLetterLoop (f + 1) i
          = Char.ofNat (65 + i % 26) :: columnLetterLoop f (i / 26 - 1) := by
        simp [columnLetterLoop, h26]
      have hdivpos : 1 ≤ i / 26 := Nat.one_le_div_iff (by omega) |>.mpr hge
      have hdivlt : i / 26 < i := Nat.div_lt_self (by omega) (by omega)
      have hlt : i / 26 - 1 < f := by omega
      rw [hloop]
      simp only [List.reverse_cons]
      rw [ih (i / 26 - 1) hlt]
      have hsub : i / 26 - 1 + 1 = i / 26 := by omega
      rw [hsub, bijBase26_pos (i + 1) (Nat.succ_ne_zero i)]
      simp

/-- C1: for every 1-based column index, `column_letter` returns the
bijective base-26 letter sequence of that index, and in particular it
maps 1, 26, 27, 52, 53, 702 and 703 to A, Z, AA, AZ, BA, ZZ and AAA. -/
theorem column_letter_spec (c : Nat) (h : 1 ≤ c) :
    column_letter c = String.mk (bijBase26 c) ∧
    column_letter 1 = "A" ∧ column_letter 26 = "Z" ∧ column_letter 27 = "AA" ∧
    column_letter 52 = "AZ" ∧ column_letter 53 = "BA" ∧ column_letter 702 = "ZZ" ∧
    column_letter 703 = "AAA" := by
  refine ⟨?_, by decide, by decide, by decide, by decide, by decide, by decide, by decide⟩
  unfold column_letter
  rw [columnLetterLoop_reverse c (c - 1) (by omega)]
  have hc : c - 1 + 1 = c := by omega
  rw [hc]

/-- Witness for `column_letter_spec` at the concrete index 703. -/
theorem column_letter_spec_witness :
    1 ≤ 703 ∧
    (column_letter 703 = String.mk (bijBase26 703) ∧
     column_letter 1 = "A" ∧ column_letter 26 = "Z" ∧ column_letter 27 = "AA" ∧
     column_letter 52 = "AZ" ∧ column_letter 53 = "BA" ∧ column_letter 702 = "ZZ" ∧
     column_letter 703 = "AAA") :=
  ⟨by decide, column_letter_spec 703 (by decide)⟩

/-- C9: on input 0 the initial `column_index - 1` underflows the
unsigned index and the function panics under checked arithmetic; for
every index satisfying the documented 1-based precondition the
subtraction is safe and the function is total, agreeing with the
unchecked model. -/
theorem column_letter_checked_spec (c : Nat) (h : 1 ≤ c) :
    column_letter_checked 0 = none ∧
    column_letter_checked c = some (column_letter c) := by
  constructor
  · rfl
  · unfold column_letter_checked usize_sub
    rw [if_pos h]
    rfl

/-- Witness for `column_letter_checked_spec` at the concrete index 5. -/
theorem column_letter_checked_spec_witness :
    1 ≤ 5 ∧ (column_letter_checked 0 = none ∧
      column_letter_checked 5 = some (column_letter 5)) :=
  ⟨by decide, column_letter_checked_spec 5 (by decide)⟩

/-- C3: `add_cell` with a `Blank(n)` value stores no cell (and since the
value itself also emits no XML, the emitted row is unchanged) and
advances the column cursor by exactly `n`; with any non-`Blank` value it
advances the cursor by 1 and stores a cell whose column index is the new
cursor value. -/
theorem add_cell_blank_spec (r : Row) (n : Nat) (x : Option Nat)
    (cd : CellData) (rid : String) (h : cd.value.isBlank = false) :
    (r.add_cell ⟨CellValue.Blank n, x⟩).cells = r.cells ∧
    (r.add_cell ⟨CellValue.Blank n, x⟩).max_col_index = r.max_col_index + n ∧
    write_value ⟨CellValue.Blank n, x⟩ rid = "" ∧
    Row.write (r.add_cell ⟨CellValue.Blank n, x⟩) = Row.write r ∧
    (r.add_cell cd).max_col_index = r.max_col_index + 1 ∧
    (r.add_cell cd).cells = r.cells ++ [⟨r.max_col_index + 1, cd⟩] := by
  refine ⟨rfl, rfl, rfl, rfl, ?_, ?_⟩ <;>
  · rcases cd with ⟨v, xf⟩
    cases v
    case Blank m => simp [CellValue.isBlank] at h
    all_goals rfl

/-- Witness for `add_cell_blank_spec`: a boolean cell after a 30-column
blank run. -/
theorem add_cell_blank_spec_witness :
    (CellData.mk (CellValue.Bool true) none).value.isBlank = false ∧
    ((Row.new.add_cell ⟨CellValue.Blank 30, none⟩).cells = Row.new.cells ∧
     (Row.new.add_cell ⟨CellValue.Blank 30, none⟩).max_col_index = Row.new.max_col_index + 30 ∧
     write_value ⟨CellValue.Blank 30, none⟩ "A1" = "" ∧
     Row.write (Row.new.add_cell ⟨CellValue.Blank 30, none⟩) = Row.write Row.new ∧
     (Row.new.add_cell ⟨CellValue.Bool true, none⟩).max_col_index = Row.new.max_col_index + 1 ∧
     (Row.new.add_cell ⟨CellValue.Bool true, none⟩).cells
       = Row.new.cells ++ [⟨Row.new.max_col_index + 1, ⟨CellValue.Bool true, none⟩⟩]) :=
  ⟨rfl, add_cell_blank_spec Row.new 30 none ⟨CellValue.Bool true, none⟩ "A1" rfl⟩

/-- C4 counterexample: `merge_cells((1,2),(3,4))` does not record the
range "B2:D4". Column 1 is letter A (the arguments are 1-based
`(column, row)` pairs, so `(1,2)` is cell A2), hence the recorded range
is "A2:C4". -/
theorem merge_cells_example_not_B2D4 :
    (SheetWriter.merge_cells Sheet.default (1, 2) (3, 4)).2.merged_cells.map
        (fun m => m.start_ref ++ ":" ++ m.end_ref) ≠ ["B2:D4"] := by
  decide

/-- C4 (amended): `merge_cells((1,2),(3,4))` returns Ok and records the
merged range "A2:C4"; `merge_cells((2,2),(1,1))` returns an
invalid-range error and records nothing; in general
`merge_cells(start, end)` succeeds exactly when `end >= start` on both
the column and the row axis. -/
theorem merge_cells_spec (sheet : Sheet) (s f : Nat × Nat) :
    ((SheetWriter.merge_cells sheet (1, 2) (3, 4)).1 = Except.ok () ∧
     (SheetWriter.merge_cells sheet (1, 2) (3, 4)).2.merged_cells
       = sheet.merged_cells ++ [⟨"A2", "C4"⟩]) ∧
    ((SheetWriter.merge_cells sheet (2, 2) (1, 1)).1 = Except.error "invalid range" ∧
     (SheetWriter.merge_cells sheet (2, 2) (1, 1)).2 = sheet) ∧
    ((SheetWriter.merge_cells sheet s f).1 = Except.ok () ↔ f.1 ≥ s.1 ∧ f.2 ≥ s.2) := by
  refine ⟨⟨?_, ?_⟩, ⟨?_, ?_⟩, ?_⟩
  · rw [SheetWriter.merge_cells, if_pos (by omega)]
  · rw [SheetWriter.merge_cells, if_pos (by omega)]
    have hmc : (⟨ref_id 1 2, ref_id 3 4⟩ : MergedCell) = ⟨"A2", "C4"⟩ := by decide
    simpa using congrArg (fun m => sheet.merged_cells ++ [m]) hmc
  · rw [SheetWriter.merge_cells, if_neg (by omega)]
  · rw [SheetWriter.merge_cells, if_neg (by omega)]
  · constructor
    · intro hok
      by_contra hno
      rw [SheetWriter.merge_cells, if_neg hno] at hok
      exact Except.noConfusion hok
    · intro hge
      rw [SheetWriter.merge_cells, if_pos hge]

/-- C5: a valid range is recorded with its letter+row rendering
("A1:A1", "A1:D21"); the all-zero call and every call where a start
exceeds its end are silent no-ops that leave the autofilter unset, so no
`autoFilter` element is emitted. -/
theorem add_auto_filter_spec (s : Sheet) (a b c d : Nat) (h : s.auto_filter = none) :
    ((s.add_auto_filter 1 1 1 1).auto_filter.map AutoFilter.to_string) = some "A1:A1" ∧
    ((s.add_auto_filter 1 4 1 21).auto_filter.map AutoFilter.to_string) = some "A1:D21" ∧
    (s.add_auto_filter 0 0 0 0).auto_filter = none ∧
    (a > b ∨ c > d →
      (s.add_auto_filter a b c d).auto_filter = none ∧
      (s.add_auto_filter a b c d).write_data_end = "\n</sheetData>\n") := by
  refine ⟨?_, ?_, ?_, ?_⟩
  · rw [Sheet.add_auto_filter, if_pos (by omega)]
    exact congrArg some
      (by decide : AutoFilter.to_string ⟨column_letter 1, column_letter 1, 1, 1⟩ = "A1:A1")
  · rw [Sheet.add_auto_filter, if_pos (by omega)]
    exact congrArg some
      (by decide : AutoFilter.to_string ⟨column_letter 1, column_letter 4, 1, 21⟩ = "A1:D21")
  · rw [Sheet.add_auto_filter, if_neg (by omega)]
    exact h
  · intro hor
    rw [Sheet.add_auto_filter, if_neg (by omega)]
    exact ⟨h, by rw [Sheet.write_data_end, h]⟩

/-- Witness for `add_auto_filter_spec` on the default sheet with the
invalid range (2,1,3,1) (start column 2 exceeds end column 1). -/
theorem add_auto_filter_spec_witness :
    Sheet.default.auto_filter = none ∧
    (((Sheet.default.add_auto_filter 1 1 1 1).auto_filter.map AutoFilter.to_string) = some "A1:A1" ∧
     ((Sheet.default.add_auto_filter 1 4 1 21).auto_filter.map AutoFilter.to_string) = some "A1:D21" ∧
     (Sheet.default.add_auto_filter 0 0 0 0).auto_filter = none ∧
     (2 > 1 ∨ 3 > 1 →
       (Sheet.default.add_auto_filter 2 1 3 1).auto_filter = none ∧
       (Sheet.default.add_auto_filter 2 1 3 1).write_data_end = "\n</sheetData>\n")) :=
  ⟨rfl, add_auto_filter_spec Sheet.default 2 1 3 1 rfl⟩

/-- C7: host text beginning with "=" coerces to a `Formula` cell value
(carrying the text after the "="), `add_cell` appends that formula text
to the calc chain of the owning row, and `write_row` merges the calc
chain of the row into the calc chain of the sheet. -/
theorem formula_calc_chain_spec (s : String) (rest : List Char)
    (r : Row) (sheet : Sheet) (row : Row)
    (h : s.data = '=' :: rest) :
    (strToCellData s).value = CellValue.Formula (String.mk rest) ∧
    (r.add_cell (strToCellData s)).calc_chain = r.calc_chain ++ [String.mk rest] ∧
    (sheet.write_row row).1.calc_chain = sheet.calc_chain ++ row.calc_chain := by
  have hs : strToCellData s = ⟨CellValue.Formula (String.mk rest), none⟩ := by
    rw [strToCellData, h]
    simp
  exact ⟨by rw [hs], by rw [hs]; rfl, rfl⟩

/-- Witness for `formula_calc_chain_spec` at the input "=A1+B1". -/
theorem formula_calc_chain_spec_witness :
    "=A1+B1".data = '=' :: "A1+B1".data ∧
    ((strToCellData "=A1+B1").value = CellValue.Formula (String.mk "A1+B1".data) ∧
     (Row.new.add_cell (strToCellData "=A1+B1")).calc_chain
       = Row.new.calc_chain ++ [String.mk "A1+B1".data] ∧
     (Sheet.default.write_row Row.new).1.calc_chain
       = Sheet.default.calc_chain ++ Row.new.calc_chain) :=
  ⟨by decide, formula_calc_chain_spec "=A1+B1" "A1+B1".data Row.new Sheet.default Row.new
    (by decide)⟩

/-- C8: `merge_range` records the given pair of cell references verbatim
and returns Ok unconditionally; unlike `merge_cells` it performs no
validation and cannot fail. -/
theorem merge_range_spec (sheet : Sheet) (start_ref end_ref : String) :
    (SheetWriter.merge_range sheet start_ref end_ref).1 = Except.ok () ∧
    (SheetWriter.merge_range sheet start_ref end_ref).2.merged_cells
      = sheet.merged_cells ++ [⟨start_ref, end_ref⟩] :=
  ⟨rfl, rfl⟩

theorem listPosition_eq_none_iff (val : String) (l : List String) :
    listPosition (fun v => v == val) l = none ↔ val ∉ l := by
  induction l with
  | nil => simp [listPosition]
  | cons a l ih =>
    by_cases ha : a = val
    · simp [listPosition, ha]
    · have hbeq : (a == val) = false := by simp [ha]
      have hstep : listPosition (fun v => v == val) (a :: l)
          = (listPosition (fun v => v == val) l).map (· + 1) := by
        simp [listPosition, hbeq]
      rw [hstep]
      constructor
      · intro hm
        have hnone : listPosition (fun v => v == val) l = none := by
          rcases hres : listPosition (fun v => v == val) l with _ | i
          · rfl
          · rw [hres] at hm; exact Option.noConfusion hm
        have hnl := ih.mp hnone
        intro hmem
        rcases List.mem_cons.mp hmem with he | hl
        · exact ha he.symm
        · exact hnl hl
      · intro hm
        have hnl : val ∉ l := fun hl => hm (List.mem_cons_of_mem a hl)
        rw [ih.mpr hnl]
        rfl

theorem listPosition_append_of_none (p : String → Bool) (l : List String) (a : String)
    (h : listPosition p l = none) (ha : p a = true) :
    listPosition p (l ++ [a]) = some l.length := by
  induction l with
  | nil => simp [listPosition, ha]
  | cons x l ih =>
    rw [listPosition] at h
    by_cases hx : p x
    · simp [hx] at h
    · have hl : listPosition p l = none := by
        simp only [hx, if_false, Bool.false_eq_true] at h
        rcases hres : listPosition p l with _ | i
        · rfl
        · rw [hres] at h; exact Option.noConfusion h
      simp [List.cons_append, listPosition, hx, ih hl]

theorem register_count (s : SharedStrings) (val : String) :
    ((s.register val).2).count = s.count + 1 := by
  rw [SharedStrings.register]
  rcases listPosition (fun v => v == val) s.strings with _ | idx
  · rfl
  · rfl

theorem register_strings (s : SharedStrings) (val : String) :
    ((s.register val).2).strings
      = if val ∈ s.strings then s.strings else s.strings ++ [val] := by
  rw [SharedStrings.register]
  rcases hpos : listPosition (fun v => v == val) s.strings with _ | idx
  · have hmem : val ∉ s.strings := (listPosition_eq_none_iff val s.strings).mp hpos
    simp [hmem]
  · have hmem : val ∈ s.strings := by
      by_contra hno
      rw [(listPosition_eq_none_iff val s.strings).mpr hno] at hpos
      exact Option.noConfusion hpos
    simp [hmem]

theorem register_same_index (s : SharedStrings) (val : String) :
    (((s.register val).2).register val).1 = (s.register val).1 := by
  rcases hpos : listPosition (fun v => v == val) s.strings with _ | idx
  · have h1 : s.register val
        = (CellValue.SharedString (toString s.strings.length),
           { s with count := s.count + 1, strings := s.strings ++ [val] }) := by
      rw [SharedStrings.register, hpos]
    have hlen : listPosition (fun v => v == val) (s.strings ++ [val])
        = some s.strings.length :=
      listPosition_append_of_none _ _ _ hpos (by simp)
    rw [h1, SharedStrings.register]
    simp [hlen]
  · have h1 : s.register val
        = (CellValue.SharedString (toString idx), { s with count := s.count + 1 }) := by
      rw [SharedStrings.register, hpos]
    rw [h1, SharedStrings.register]
    simp [hpos]

theorem registerAll_count (vals : List String) :
    ∀ s : SharedStrings, (registerAll s vals).count = s.count + vals.length := by
  induction vals with
  | nil => intro s; simp [registerAll]
  | cons v vs ih =>
    intro s
    rw [registerAll, ih, register_count, List.length_cons]
    omega

theorem registerAll_strings_toFinset (vals : List String) :
    ∀ s : SharedStrings,
      (registerAll s vals).strings.toFinset = s.strings.toFinset ∪ vals.toFinset := by
  induction vals with
  | nil => intro s; simp [registerAll]
  | cons v vs ih =>
    intro s
    rw [registerAll, ih, register_strings]
    by_cases hmem : v ∈ s.strings
    · rw [if_pos hmem]
      ext x
      simp only [Finset.mem_union, List.mem_toFinset, List.mem_cons]
      constructor
      · intro hx
        rcases hx with h1 | h2
        · exact Or.inl h1
        · exact Or.inr (Or.inr h2)
      · intro hx
        rcases hx with h1 | h2 | h3
        · exact Or.inl h1
        · exact Or.inl (h2 ▸ hmem)
        · exact Or.inr h3
    · rw [if_neg hmem]
      ext x
      simp only [Finset.mem_union, List.mem_toFinset, List.mem_cons, List.mem_append,
        List.mem_singleton, List.not_mem_nil, or_false]
      tauto

theorem registerAll_strings_nodup (vals : List String) :
    ∀ s : SharedStrings, s.strings.Nodup → (registerAll s vals).strings.Nodup := by
  induction vals with
  | nil => intro s h; simpa [registerAll] using h
  | cons v vs ih =>
    intro s h
    rw [registerAll]
    apply ih
    rw [register_strings]
    by_cases hmem : v ∈ s.strings
    · rw [if_pos hmem]; exact h
    · rw [if_neg hmem]
      rw [List.nodup_append]
      refine ⟨h, List.nodup_singleton v, ?_⟩
      intro x hx hxv
      rw [List.mem_singleton] at hxv
      exact hmem (hxv ▸ hx)

/-- C2: registering the same string twice returns the same shared-string
index both times; starting from an enabled table, after any sequence of
`register` calls the number of stored unique strings equals the number
of distinct strings registered and the usage count equals the total
number of calls. -/
theorem shared_strings_register_spec (s : SharedStrings) (v : String)
    (vals : List String) (_h : s.used = true) :
    (((s.register v).2).register v).1 = (s.register v).1 ∧
    (registerAll SharedStrings.new vals).strings.length = vals.toFinset.card ∧
    (registerAll SharedStrings.new vals).count = vals.length := by
  refine ⟨register_same_index s v, ?_, ?_⟩
  · have hnodup : (registerAll SharedStrings.new vals).strings.Nodup :=
      registerAll_strings_nodup vals SharedStrings.new (by simp [SharedStrings.new])
    have hfin : (registerAll SharedStrings.new vals).strings.toFinset = vals.toFinset := by
      rw [registerAll_strings_toFinset]
      simp [SharedStrings.new]
    rw [← List.toFinset_card_of_nodup hnodup, hfin]
  · rw [registerAll_count]
    simp [SharedStrings.new]

/-- Witness for `shared_strings_register_spec`: the enabled fresh table,
the string "a" registered twice, and the call sequence
["a", "b", "a"]. -/
theorem shared_strings_register_spec_witness :
    SharedStrings.new.used = true ∧
    ((((SharedStrings.new.register "a").2).register "a").1
        = (SharedStrings.new.register "a").1 ∧
     (registerAll SharedStrings.new ["a", "b", "a"]).strings.length
        = (["a", "b", "a"] : List String).toFinset.card ∧
     (registerAll SharedStrings.new ["a", "b", "a"]).count
        = (["a", "b", "a"] : List String).length) :=
  ⟨rfl, shared_strings_register_spec SharedStrings.new "a" ["a", "b", "a"] rfl⟩

theorem runSessions_state (sessions : List (String × (Sheet → Sheet))) :
    ∀ wb : Workbook,
      (runSessions wb sessions).archive_files
        = wb.archive_files ++ (List.range sessions.length).map
            (fun k => sheetEntryName (wb.max_sheet_index + 1 + k)) ∧
      (runSessions wb sessions).max_sheet_index
        = wb.max_sheet_index + sessions.length ∧
      (runSessions wb sessions).xlsx_file = wb.xlsx_file := by
  induction sessions with
  | nil => intro wb; simp [runSessions]
  | cons sess rest ih =>
    intro wb
    obtain ⟨nm, f⟩ := sess
    rw [runSessions]
    obtain ⟨ha, hm, hx⟩ :=
      ih (((wb.create_sheet nm).1.write_sheet (wb.create_sheet nm).2 f)).1
    have hstep_archive :
        (((wb.create_sheet nm).1.write_sheet (wb.create_sheet nm).2 f)).1.archive_files
          = wb.archive_files ++ [sheetEntryName (wb.max_sheet_index + 1)] := rfl
    have hstep_msi :
        (((wb.create_sheet nm).1.write_sheet (wb.create_sheet nm).2 f)).1.max_sheet_index
          = wb.max_sheet_index + 1 := rfl
    have hstep_xlsx :
        (((wb.create_sheet nm).1.write_sheet (wb.create_sheet nm).2 f)).1.xlsx_file
          = wb.xlsx_file := rfl
    refine ⟨?_, ?_, ?_⟩
    · rw [ha, hstep_archive, hstep_msi, List.length_cons, List.range_succ_eq_map,
        List.map_cons, List.map_map, List.append_assoc, List.singleton_append]
      have hfun : ((fun k => sheetEntryName (wb.max_sheet_index + 1 + k)) ∘ Nat.succ)
          = fun k => sheetEntryName (wb.max_sheet_index + 1 + 1 + k) := by
        funext k
        simp only [Function.comp_apply]
        congr 1
        omega
      rw [hfun]
    · rw [hm, hstep_msi, List.length_cons]
      omega
    · rw [hx, hstep_xlsx]

/-- C6: closing an in-memory workbook after N create-and-write sheet
sessions returns a package whose entry list is exactly the N worksheet
parts `xl/worksheets/sheetK.xml` for K = 1..N plus the fixed skeleton
parts. -/
theorem in_memory_close_entries (sessions : List (String × (Sheet → Sheet))) :
    ((runSessions Workbook.create_in_memory sessions).close).2
      = some ((List.range sessions.length).map (fun k => sheetEntryName (k + 1))
          ++ skeletonParts) := by
  obtain ⟨ha, _hm, hx⟩ := runSessions_state sessions Workbook.create_in_memory
  have hx0 : (runSessions Workbook.create_in_memory sessions).xlsx_file = none := hx
  have hfun : (fun k => sheetEntryName (Workbook.create_in_memory.max_sheet_index + 1 + k))
      = fun k => sheetEntryName (k + 1) := by
    funext k
    congr 1
    show 0 + 1 + k = k + 1
    omega
  rw [Workbook.close]
  have hcf : ((runSessions Workbook.create_in_memory sessions).create_files).xlsx_file
      = none := hx0
  have hcfa : ((runSessions Workbook.create_in_memory sessions).create_files).archive_files
      = (runSessions Workbook.create_in_memory sessions).archive_files ++ skeletonParts :=
    rfl
  rw [hcf]
  rw [hcfa, ha, hfun]
  rfl

/-- C10: the drop handler invokes close exactly on an unsaved workbook
with a destination path; a workbook already saved, or one created in
memory without a path, does nothing on drop; after a (successful)
close the drop handler never re-invokes close. -/
theorem workbook_drop_spec (wb : Workbook) :
    (wb.xlsx_file.isSome = true → wb.saved = false →
      wb.dropHandler = DropBehavior.invokesClose) ∧
    (wb.saved = true → wb.dropHandler = DropBehavior.doesNothing) ∧
    (wb.xlsx_file = none → wb.dropHandler = DropBehavior.doesNothing) ∧
    (wb.close.1.dropHandler = DropBehavior.doesNothing) := by
  refine ⟨?_, ?_, ?_, ?_⟩
  · intro hsome hunsaved
    rw [Workbook.dropHandler, if_pos (by rw [hsome, hunsaved]; rfl)]
  · intro hsaved
    rw [Workbook.dropHandler, if_neg (by rw [hsaved]; simp)]
  · intro hnone
    rw [Workbook.dropHandler, if_neg (by rw [hnone]; simp)]
  · rcases hx : wb.xlsx_file with _ | p
    · have hcn : wb.create_files.xlsx_file = none := hx
      simp only [Workbook.close, hcn]
      simp [Workbook.dropHandler, hcn]
    · have hcs : wb.create_files.xlsx_file = some p := hx
      simp only [Workbook.close, hcs]
      simp [Workbook.dropHandler]

/-- Witness for `workbook_drop_spec`: a file-backed workbook that was
never closed invokes close from drop; the in-memory workbook does
nothing. -/
theorem workbook_drop_spec_witness :
    (Workbook.create "a.xlsx").xlsx_file.isSome = true ∧
    (Workbook.create "a.xlsx").saved = false ∧
    (Workbook.create "a.xlsx").dropHandler = DropBehavior.invokesClose ∧
    Workbook.create_in_memory.xlsx_file = none ∧
    Workbook.create_in_memory.dropHandler = DropBehavior.doesNothing :=
  ⟨rfl, rfl, (workbook_drop_spec (Workbook.create "a.xlsx")).1 rfl rfl,
   rfl, (workbook_drop_spec Workbook.create_in_memory).2.2.1 rfl⟩

end SimpleExcelWriter
